import Mathlib

/-!
Shallow embedding of the self-hosted RFM segmentation pipeline: feature
extraction (`app/rfm.py`), k-means clustering and segment labelling
(`app/clustering.py`), ingestion error aggregation (`app/ingestion.py`) and
the orchestrator (`app/pipeline/run_full.py`).

Python `datetime` values are modelled as integer Unix timestamps in seconds;
`timedelta(days = w)` is `w * 86400` seconds and `timedelta.days` floors the
span to whole days, matching Python semantics. `Decimal` money amounts are
modelled as rationals.
-/

namespace App

/-- A row of the `customers` table (`app/models.py`); only the business key
`customer_id` is read by the pipeline. -/
structure Customer where
  customer_id : String
deriving Repr, DecidableEq, Inhabited

/-- A row of the `orders` table (`app/models.py`). `order_date` is a Unix
timestamp in seconds, `order_amount` a decimal modelled as a rational. -/
structure Order where
  order_id : String
  customer_id : String
  order_date : Int
  order_amount : ℚ
  status : String
deriving Repr, DecidableEq, Inhabited

/-- A row of the `rfm_features` table (`app/models.py`). -/
structure RFMFeature where
  customer_id : String
  calc_date : Int
  recency_days : Int
  frequency : ℕ
  monetary : ℚ
deriving Repr, DecidableEq, Inhabited

/-- Seconds per day; used to model `timedelta`. -/
def secondsPerDay : Int := 86400

/-- `timedelta(days = w)` measured in seconds. -/
def timedeltaDays (w : ℕ) : Int := (w : Int) * secondsPerDay

/-- The `.days` field of a timedelta of `t` seconds; Python floors toward
negative infinity. -/
def tdDays (t : Int) : Int := Int.fdiv t secondsPerDay

/-- The order filter of `calculate_rfm` (`app/rfm.py`, the `db.query(Order)`
call): same customer, `order_date` between `window_start` and `calc_date`,
and status `completed`. -/
def completedInWindow (calc_date : Int) (window_days : ℕ) (cid : String)
    (o : Order) : Bool :=
  o.customer_id == cid
    && decide (calc_date - timedeltaDays window_days ≤ o.order_date)
    && decide (o.order_date ≤ calc_date)
    && o.status == "completed"

/-- Maximum timestamp of a nonempty list of orders, `max(o.order_date ...)`
in Python; 0 for the empty list (never used on it). -/
def maxOrderDate : List Order → Int
  | [] => 0
  | o :: os => (os.map Order.order_date).foldl max o.order_date

/-- The body of the per-customer loop of `calculate_rfm` (`app/rfm.py`):
empty selection yields the sentinel record, otherwise recency is days since
the latest selected order, frequency the count and monetary the sum. -/
def rfmForCustomer (orders : List Order) (calc_date : Int) (window_days : ℕ)
    (customer : Customer) : RFMFeature :=
  match orders.filter (completedInWindow calc_date window_days customer.customer_id) with
  | [] =>
      { customer_id := customer.customer_id
        calc_date := calc_date
        recency_days := (window_days : Int) + 1
        frequency := 0
        monetary := 0 }
  | o :: os =>
      { customer_id := customer.customer_id
        calc_date := calc_date
        recency_days := tdDays (calc_date - maxOrderDate (o :: os))
        frequency := (o :: os).length
        monetary := ((o :: os).map Order.order_amount).sum }

/-- `calculate_rfm` (`app/rfm.py`): one RFM record per customer row. -/
def calculate_rfm (customers : List Customer) (orders : List Order)
    (calc_date : Int) (window_days : ℕ) : List RFMFeature :=
  customers.map (rfmForCustomer orders calc_date window_days)

/-- The spec wording of qualification (§4.1): an order qualifies exactly when
its status is "completed" and its timestamp lies in
`[calcDate − windowDays, calcDate]`, inclusive on both ends. -/
def specQualifies (calc_date : Int) (window_days : ℕ) (cid : String)
    (o : Order) : Prop :=
  o.customer_id = cid ∧ o.status = "completed" ∧
    calc_date - timedeltaDays window_days ≤ o.order_date ∧
    o.order_date ≤ calc_date

instance (calc_date : Int) (window_days : ℕ) (cid : String) (o : Order) :
    Decidable (specQualifies calc_date window_days cid o) := by
  unfold specQualifies; infer_instance

theorem foldl_max_le {B : Int} :
    ∀ (l : List Int) (a : Int), a ≤ B → (∀ x ∈ l, x ≤ B) → l.foldl max a ≤ B := by
  intro l
  induction l with
  | nil => intro a ha _; simpa using ha
  | cons x xs ih =>
      intro a ha hl
      simp only [List.foldl_cons]
      exact ih (max a x) (max_le ha (hl x (List.mem_cons_self x xs)))
        fun y hy => hl y (List.mem_cons_of_mem x hy)

theorem le_foldl_max : ∀ (l : List Int) (a : Int), a ≤ l.foldl max a := by
  intro l
  induction l with
  | nil => intro a; simp
  | cons x xs ih =>
      intro a
      simp only [List.foldl_cons]
      exact le_trans (le_max_left a x) (ih (max a x))

theorem completedInWindow_iff (calc_date : Int) (window_days : ℕ)
    (cid : String) (o : Order) :
    completedInWindow calc_date window_days cid o = true ↔
      specQualifies calc_date window_days cid o := by
  simp [completedInWindow, specQualifies, and_assoc]
  tauto

theorem maxOrderDate_le {l : List Order} {B : Int}
    (h : ∀ o ∈ l, o.order_date ≤ B) (hne : l ≠ []) : maxOrderDate l ≤ B := by
  cases l with
  | nil => exact absurd rfl hne
  | cons o os =>
      refine foldl_max_le (os.map Order.order_date) o.order_date
        (h o (List.mem_cons_self o os)) ?_
      intro x hx
      obtain ⟨o2, ho2, rfl⟩ := List.mem_map.mp hx
      exact h o2 (List.mem_cons_of_mem o ho2)

theorem head_le_maxOrderDate (o : Order) (os : List Order) :
    o.order_date ≤ maxOrderDate (o :: os) :=
  le_foldl_max (os.map Order.order_date) o.order_date

theorem filter_spec_eq (orders : List Order) (calc_date : Int)
    (window_days : ℕ) (cid : String) :
    (orders.filter fun o => decide (specQualifies calc_date window_days cid o)) =
      orders.filter (completedInWindow calc_date window_days cid) := by
  apply List.filter_congr
  intro o _
  cases hcw : completedInWindow calc_date window_days cid o with
  | true =>
      simp [(completedInWindow_iff calc_date window_days cid o).mp hcw]
  | false =>
      have hq : ¬ specQualifies calc_date window_days cid o := by
        intro hq
        have := (completedInWindow_iff calc_date window_days cid o).mpr hq
        rw [hcw] at this
        cases this
      simp [hq]

theorem selection_mem_pred {orders : List Order} {calc_date : Int}
    {window_days : ℕ} {cid : String} {o : Order} {os : List Order}
    (hsel : orders.filter (completedInWindow calc_date window_days cid) = o :: os) :
    ∀ x ∈ o :: os, specQualifies calc_date window_days cid x := by
  intro x hx
  have hmem : x ∈ orders.filter (completedInWindow calc_date window_days cid) := by
    rw [hsel]; exact hx
  exact (completedInWindow_iff calc_date window_days cid x).mp
    (List.mem_filter.mp hmem).2

theorem tdDays_nonneg {t : Int} (h : 0 ≤ t) : 0 ≤ tdDays t := by
  unfold tdDays secondsPerDay
  rw [Int.fdiv_eq_ediv _ (by norm_num)]
  omega

theorem tdDays_le_of_le {t : Int} {w : ℕ} (h : t ≤ timedeltaDays w) :
    tdDays t ≤ (w : Int) := by
  unfold tdDays secondsPerDay
  unfold timedeltaDays secondsPerDay at h
  rw [Int.fdiv_eq_ediv _ (by norm_num)]
  omega

theorem recency_le_window {orders : List Order} {calc_date : Int}
    {window_days : ℕ} {c : Customer}
    (h : orders.filter (completedInWindow calc_date window_days c.customer_id) ≠ []) :
    (rfmForCustomer orders calc_date window_days c).recency_days ≤ (window_days : Int) := by
  unfold rfmForCustomer
  cases hsel : orders.filter (completedInWindow calc_date window_days c.customer_id) with
  | nil => exact absurd hsel h
  | cons o os =>
      have hq := selection_mem_pred hsel
      have hub : maxOrderDate (o :: os) ≤ calc_date := by
        refine maxOrderDate_le ?_ (by simp)
        intro x hx
        exact (hq x hx).2.2.2
      have hlb : calc_date - timedeltaDays window_days ≤ maxOrderDate (o :: os) :=
        le_trans (hq o (List.mem_cons_self o os)).2.2.1 (head_le_maxOrderDate o os)
      exact tdDays_le_of_le (by omega)

/-- C1: a customer with no qualifying order gets the sentinel record
`recency_days = windowDays + 1`, `frequency = 0`, `monetary = 0.00`, and the
sentinel strictly exceeds the recency of any customer with at least one
qualifying order in the window. -/
theorem rfm_sentinel_exceeds (orders : List Order) (calc_date : Int)
    (window_days : ℕ) (c c2 : Customer)
    (h : orders.filter (completedInWindow calc_date window_days c.customer_id) = [])
    (h2 : orders.filter (completedInWindow calc_date window_days c2.customer_id) ≠ []) :
    (rfmForCustomer orders calc_date window_days c).recency_days
        = (window_days : Int) + 1 ∧
      (rfmForCustomer orders calc_date window_days c).frequency = 0 ∧
      (rfmForCustomer orders calc_date window_days c).monetary = 0 ∧
      (rfmForCustomer orders calc_date window_days c2).recency_days <
        (rfmForCustomer orders calc_date window_days c).recency_days := by
  have hsent : rfmForCustomer orders calc_date window_days c =
      { customer_id := c.customer_id, calc_date := calc_date
        recency_days := (window_days : Int) + 1, frequency := 0, monetary := 0 } := by
    unfold rfmForCustomer
    rw [h]
  refine ⟨by rw [hsent], by rw [hsent], by rw [hsent], ?_⟩
  rw [hsent]
  show (rfmForCustomer orders calc_date window_days c2).recency_days
      < (window_days : Int) + 1
  have := recency_le_window h2
  omega

/-- Concrete instance discharging the hypotheses of `rfm_sentinel_exceeds`:
one completed order for customer "B" two days before the calc date, none for
customer "A". -/
theorem rfm_sentinel_exceeds_witness :
    (rfmForCustomer [⟨"o1", "B", 691200, 100, "completed"⟩] 864000 365
          ⟨"A"⟩).recency_days = (365 : Int) + 1 ∧
      (rfmForCustomer [⟨"o1", "B", 691200, 100, "completed"⟩] 864000 365
          ⟨"A"⟩).frequency = 0 ∧
      (rfmForCustomer [⟨"o1", "B", 691200, 100, "completed"⟩] 864000 365
          ⟨"A"⟩).monetary = 0 ∧
      (rfmForCustomer [⟨"o1", "B", 691200, 100, "completed"⟩] 864000 365
          ⟨"B"⟩).recency_days <
        (rfmForCustomer [⟨"o1", "B", 691200, 100, "completed"⟩] 864000 365
          ⟨"A"⟩).recency_days :=
  rfm_sentinel_exceeds [⟨"o1", "B", 691200, 100, "completed"⟩] 864000 365
    ⟨"A"⟩ ⟨"B"⟩ (by decide) (by decide)

/-- C2: for a customer with at least one qualifying order the extractor
returns recency = whole days from the latest qualifying order to the calc
date, frequency = the count of qualifying orders and monetary = the sum of
their amounts, where qualification is exactly the spec predicate (status
"completed" and timestamp in `[calcDate − windowDays, calcDate]`, both ends
inclusive); no other order contributes. -/
theorem rfm_qualifying_formulas (orders : List Order) (calc_date : Int)
    (window_days : ℕ) (c : Customer)
    (h : ∃ o ∈ orders, specQualifies calc_date window_days c.customer_id o) :
    (∀ o : Order, completedInWindow calc_date window_days c.customer_id o = true ↔
        specQualifies calc_date window_days c.customer_id o) ∧
      (rfmForCustomer orders calc_date window_days c).recency_days
        = tdDays (calc_date - maxOrderDate (orders.filter fun o =>
            decide (specQualifies calc_date window_days c.customer_id o))) ∧
      (rfmForCustomer orders calc_date window_days c).frequency
        = (orders.filter fun o =>
            decide (specQualifies calc_date window_days c.customer_id o)).length ∧
      (rfmForCustomer orders calc_date window_days c).monetary
        = ((orders.filter fun o =>
            decide (specQualifies calc_date window_days c.customer_id o)).map
              Order.order_amount).sum := by
  refine ⟨completedInWindow_iff calc_date window_days c.customer_id, ?_⟩
  rw [filter_spec_eq]
  obtain ⟨o0, ho0, hq0⟩ := h
  have hne : orders.filter (completedInWindow calc_date window_days c.customer_id) ≠ [] := by
    have : o0 ∈ orders.filter (completedInWindow calc_date window_days c.customer_id) :=
      List.mem_filter.mpr ⟨ho0,
        (completedInWindow_iff calc_date window_days c.customer_id o0).mpr hq0⟩
    exact List.ne_nil_of_mem this
  unfold rfmForCustomer
  cases hsel : orders.filter (completedInWindow calc_date window_days c.customer_id) with
  | nil => exact absurd hsel hne
  | cons o os => exact ⟨rfl, rfl, rfl⟩

/-- Concrete instance discharging the hypothesis of
`rfm_qualifying_formulas`: two completed orders and one cancelled order for
customer "A". -/
theorem rfm_qualifying_formulas_witness :
    (∀ o : Order, completedInWindow 1296000 365 "A" o = true ↔
        specQualifies 1296000 365 "A" o) ∧
      (rfmForCustomer
          [⟨"o1", "A", 864000, 150, "completed"⟩,
           ⟨"o2", "A", 432000, 100, "completed"⟩,
           ⟨"o3", "A", 1209600, 50, "cancelled"⟩] 1296000 365
          ⟨"A"⟩).recency_days
        = tdDays (1296000 - maxOrderDate
            ([⟨"o1", "A", 864000, 150, "completed"⟩,
              ⟨"o2", "A", 432000, 100, "completed"⟩,
              ⟨"o3", "A", 1209600, 50, "cancelled"⟩].filter fun o =>
                decide (specQualifies 1296000 365 "A" o))) ∧
      (rfmForCustomer
          [⟨"o1", "A", 864000, 150, "completed"⟩,
           ⟨"o2", "A", 432000, 100, "completed"⟩,
           ⟨"o3", "A", 1209600, 50, "cancelled"⟩] 1296000 365
          ⟨"A"⟩).frequency
        = ([⟨"o1", "A", 864000, 150, "completed"⟩,
            ⟨"o2", "A", 432000, 100, "completed"⟩,
            ⟨"o3", "A", 1209600, 50, "cancelled"⟩].filter fun o =>
              decide (specQualifies 1296000 365 "A" o)).length ∧
      (rfmForCustomer
          [⟨"o1", "A", 864000, 150, "completed"⟩,
           ⟨"o2", "A", 432000, 100, "completed"⟩,
           ⟨"o3", "A", 1209600, 50, "cancelled"⟩] 1296000 365
          ⟨"A"⟩).monetary
        = (([⟨"o1", "A", 864000, 150, "completed"⟩,
             ⟨"o2", "A", 432000, 100, "completed"⟩,
             ⟨"o3", "A", 1209600, 50, "cancelled"⟩].filter fun o =>
               decide (specQualifies 1296000 365 "A" o)).map
              Order.order_amount).sum :=
  rfm_qualifying_formulas
    [⟨"o1", "A", 864000, 150, "completed"⟩,
     ⟨"o2", "A", 432000, 100, "completed"⟩,
     ⟨"o3", "A", 1209600, 50, "cancelled"⟩] 1296000 365 ⟨"A"⟩
    ⟨⟨"o1", "A", 864000, 150, "completed"⟩, by decide, by decide⟩

theorem rfmForCustomer_customer_id (orders : List Order) (calc_date : Int)
    (window_days : ℕ) (c : Customer) :
    (rfmForCustomer orders calc_date window_days c).customer_id = c.customer_id := by
  unfold rfmForCustomer
  cases orders.filter (completedInWindow calc_date window_days c.customer_id) with
  | nil => rfl
  | cons o os => rfl

/-- C3: the extractor emits exactly one RFM record per customer row — the
output has the same length as the customer list, its customer ids are
exactly the input customer ids in order, and for every id the number of
output records with that id equals the number of customer rows with that id.
Purity holds by construction: `calculate_rfm` is a function of its explicit
arguments only. -/
theorem calculate_rfm_one_record_per_customer (customers : List Customer)
    (orders : List Order) (calc_date : Int) (window_days : ℕ) :
    (calculate_rfm customers orders calc_date window_days).length
        = customers.length ∧
      (calculate_rfm customers orders calc_date window_days).map
          RFMFeature.customer_id = customers.map Customer.customer_id ∧
      ∀ cid : String,
        ((calculate_rfm customers orders calc_date window_days).filter
            fun r => r.customer_id == cid).length
          = (customers.filter fun c => c.customer_id == cid).length := by
  refine ⟨by simp [calculate_rfm], ?_, ?_⟩
  · rw [calculate_rfm, List.map_map]
    apply List.map_congr_left
    intro c _
    exact rfmForCustomer_customer_id orders calc_date window_days c
  · intro cid
    rw [calculate_rfm, ← List.countP_eq_length_filter, ← List.countP_eq_length_filter,
      List.countP_map]
    apply List.countP_congr
    intro c _
    simp [Function.comp, rfmForCustomer_customer_id]

/-- A row of the `customer_clusters` table (`app/models.py`). The JSON
`cluster_score` string is modelled as the decoded centroid triple in
original units (`recency_days`, `frequency`, `monetary`). -/
structure CustomerCluster where
  customer_id : String
  calc_date : Int
  cluster_id : ℕ
  segment_name : String
  cluster_score : ℚ × ℚ × ℚ
deriving Repr, DecidableEq, Inhabited

/-- `map_cluster_to_segment` (`app/clustering.py`): rule table over the
assigned cluster's standardized centroid, evaluated in order, first match
wins, `"Need Attention"` as fallback. Out-of-range indexing (which would
raise in Python) is modelled with default 0 components. -/
def map_cluster_to_segment (cluster_id : ℕ) (centroids : List (List ℚ)) : String :=
  let centroid := centroids.getD cluster_id []
  let recency_std := centroid.getD 0 0
  let freq_std := centroid.getD 1 0
  let monetary_std := centroid.getD 2 0
  if recency_std < -(1/2 : ℚ) ∧ freq_std > (1/2 : ℚ) ∧ monetary_std > (1/2 : ℚ) then
    "Champions"
  else if recency_std < -(1/2 : ℚ) ∧ freq_std > (1/2 : ℚ) then
    "Loyal Customers"
  else if recency_std < -(1/2 : ℚ) ∧ monetary_std > (1/2 : ℚ) then
    "Big Spenders"
  else if recency_std < 0 ∧ freq_std > 0 then
    "Potential Loyalists"
  else if recency_std > (1/2 : ℚ) ∧ freq_std < -(1/2 : ℚ) then
    "At Risk"
  else if recency_std > (1/2 : ℚ) then
    "Lost"
  else if freq_std < -(1/2 : ℚ) ∧ monetary_std < -(1/2 : ℚ) then
    "Hibernating"
  else
    "Need Attention"

/-- The fixed set of segment labels of §4.3. -/
def segmentLabels : List String :=
  ["Champions", "Loyal Customers", "Big Spenders", "Potential Loyalists",
   "At Risk", "Lost", "Hibernating", "Need Attention"]

/-- Mean of a column, `sklearn` `StandardScaler.mean_`. -/
def colMean (xs : List ℚ) : ℚ := xs.sum / xs.length

/-- Population variance of a column (`ddof = 0`), as used by
`StandardScaler`. -/
def colVar (xs : List ℚ) : ℚ :=
  ((xs.map fun x => (x - colMean xs) ^ 2).sum) / xs.length

/-- `sklearn` `_handle_zeros_in_scale`: a zero scale is replaced by 1 so
that standardization never divides by zero. -/
def handleZeros (s : ℚ) : ℚ := if s = 0 then 1 else s

/-- Column `j` of a row-major matrix. -/
def column (X : List (List ℚ)) (j : ℕ) : List ℚ := X.map fun row => row.getD j 0

/-- Fitted `StandardScaler` state: per-column means and scales. -/
structure Scaler where
  means : List ℚ
  scales : List ℚ
deriving Repr, DecidableEq

/-- `StandardScaler.fit` over `ncols` columns. The square root used to turn
the variance into the standard deviation is passed explicitly (it is not a
rational operation); any real square root satisfies `sqrtFn 0 = 0`. -/
def fitScaler (sqrtFn : ℚ → ℚ) (X : List (List ℚ)) (ncols : ℕ) : Scaler :=
  { means := (List.range ncols).map fun j => colMean (column X j)
    scales := (List.range ncols).map fun j =>
      handleZeros (sqrtFn (colVar (column X j))) }

/-- `StandardScaler.transform`: subtract the column mean, divide by the
column scale. -/
def scalerTransform (sc : Scaler) (X : List (List ℚ)) : List (List ℚ) :=
  X.map fun row => (List.range row.length).map fun j =>
    (row.getD j 0 - sc.means.getD j 0) / sc.scales.getD j 0

/-- `StandardScaler.inverse_transform`: multiply by the column scale, add
the column mean. -/
def scalerInverse (sc : Scaler) (Y : List (List ℚ)) : List (List ℚ) :=
  Y.map fun row => (List.range row.length).map fun j =>
    row.getD j 0 * sc.scales.getD j 0 + sc.means.getD j 0

/-- Result of `KMeans(n_clusters = k).fit_predict` / `.cluster_centers_`:
one label per input row and `k` centroids in the standardized space. The
iterative algorithm itself is third-party (`sklearn`), so it enters the
embedding as an explicit function argument. -/
structure KMeansResult where
  labels : List ℕ
  centers : List (List ℚ)
deriving Repr, DecidableEq

/-- The error raised by `run_kmeans_clustering` when there are fewer
feature rows than clusters; realizes the spec's `InsufficientDataError`
(the Python code raises `ValueError` with the counts in the message). -/
inductive ClusteringError where
  | insufficientData (count : ℕ) (k : ℕ)
deriving Repr, DecidableEq

/-- The Python error message carried by the raised `ValueError`. -/
def clusteringErrorText : ClusteringError → String
  | .insufficientData n k =>
      "Not enough customers (" ++ toString n ++ ") for " ++ toString k ++ " clusters"

/-- `run_kmeans_clustering` (`app/clustering.py`): select the RFM rows of
the calc date, guard `len < k`, build the 3-column matrix, standardize, run
k-means (abstract `kmeansFit`), map centroids back to original units and
emit one `CustomerCluster` per feature row. -/
def run_kmeans_clustering (sqrtFn : ℚ → ℚ)
    (kmeansFit : List (List ℚ) → ℕ → KMeansResult)
    (rfm_rows : List RFMFeature) (calc_date : Int) (k : ℕ) :
    Except ClusteringError (List CustomerCluster × List (List ℚ)) :=
  let rfm_features := rfm_rows.filter fun r => r.calc_date == calc_date
  if rfm_features.length < k then
    .error (.insufficientData rfm_features.length k)
  else
    let X := rfm_features.map fun r =>
      [(r.recency_days : ℚ), (r.frequency : ℚ), r.monetary]
    let scaler := fitScaler sqrtFn X 3
    let X_scaled := scalerTransform scaler X
    let km := kmeansFit X_scaled k
    let centroids_std := km.centers
    let centroids_original := scalerInverse scaler centroids_std
    let cluster_assignments := rfm_features.mapIdx fun i rfm =>
      let cluster_id := km.labels.getD i 0
      let crow := centroids_original.getD cluster_id []
      { customer_id := rfm.customer_id
        calc_date := calc_date
        cluster_id := cluster_id
        segment_name := map_cluster_to_segment cluster_id centroids_std
        cluster_score := (crow.getD 0 0, crow.getD 1 0, crow.getD 2 0) }
    .ok (cluster_assignments, centroids_original)

/-- C4: clustering fails with the insufficient-data error, carrying the row
count and `k`, exactly when the number of feature rows selected for the calc
date is below `k` (count 0 when no rows exist), and returns a result
otherwise. -/
theorem run_kmeans_insufficient_iff (sqrtFn : ℚ → ℚ)
    (kmeansFit : List (List ℚ) → ℕ → KMeansResult)
    (rfm_rows : List RFMFeature) (calc_date : Int) (k : ℕ) :
    (run_kmeans_clustering sqrtFn kmeansFit rfm_rows calc_date k
        = .error (.insufficientData
            (rfm_rows.filter fun r => r.calc_date == calc_date).length k)
      ↔ (rfm_rows.filter fun r => r.calc_date == calc_date).length < k) ∧
    ((run_kmeans_clustering sqrtFn kmeansFit rfm_rows calc_date k).isOk = true
      ↔ k ≤ (rfm_rows.filter fun r => r.calc_date == calc_date).length) := by
  unfold run_kmeans_clustering
  dsimp only
  split
  next hlt =>
      exact ⟨iff_of_true rfl hlt,
        iff_of_false (by simp [Except.isOk, Except.toBool]) (by omega)⟩
  next hge =>
      exact ⟨iff_of_false (by simp) hge,
        iff_of_true (by simp [Except.isOk, Except.toBool]) (by omega)⟩

/-- C5: on success, clustering produces exactly one assignment per selected
feature row, and every assignment's cluster id is below `k`. The k-means
routine is third-party; the hypotheses record its documented contract (one
label per sample, labels in `[0, k)`). -/
theorem run_kmeans_assignment_invariants (sqrtFn : ℚ → ℚ)
    (kmeansFit : List (List ℚ) → ℕ → KMeansResult)
    (rfm_rows : List RFMFeature) (calc_date : Int) (k : ℕ)
    (assignments : List CustomerCluster) (centroids : List (List ℚ))
    (hlen : ∀ (X : List (List ℚ)) (k2 : ℕ), (kmeansFit X k2).labels.length = X.length)
    (hrange : ∀ (X : List (List ℚ)) (k2 : ℕ), 0 < k2 →
      ∀ l ∈ (kmeansFit X k2).labels, l < k2)
    (hk : 0 < k)
    (hok : run_kmeans_clustering sqrtFn kmeansFit rfm_rows calc_date k
        = .ok (assignments, centroids)) :
    assignments.length
        = (rfm_rows.filter fun r => r.calc_date == calc_date).length ∧
      ∀ a ∈ assignments, a.cluster_id < k := by
  unfold run_kmeans_clustering at hok
  dsimp only at hok
  split at hok
  next hlt => cases hok
  next hge =>
      injection hok with hok
      injection hok with hassign hcent
      subst hassign
      constructor
      · simp
      · intro a ha
        rw [List.mem_mapIdx] at ha
        obtain ⟨i, hi, rfl⟩ := ha
        dsimp only
        set rfm_features := rfm_rows.filter fun r => r.calc_date == calc_date with hrf
        set X := rfm_features.map fun r =>
          [(r.recency_days : ℚ), (r.frequency : ℚ), r.monetary] with hX
        set X_scaled := scalerTransform (fitScaler sqrtFn X 3) X with hXs
        have hlab : (kmeansFit X_scaled k).labels.length = rfm_features.length := by
          rw [hlen]
          simp [hXs, scalerTransform, hX]
        have hilt : i < (kmeansFit X_scaled k).labels.length := by omega
        rw [List.getD_eq_getElem?_getD, List.getElem?_eq_getElem hilt]
        exact hrange X_scaled k hk _ (List.getElem_mem hilt)

/-- Trivial stand-in for the third-party k-means routine, used to witness
the library-contract hypotheses: every sample is labelled 0 and a single
zero centroid is reported. -/
def constKMeans : List (List ℚ) → ℕ → KMeansResult :=
  fun X _ => { labels := X.map fun _ => 0, centers := [[0, 0, 0]] }

/-- Concrete instance discharging the hypotheses of
`run_kmeans_assignment_invariants`: one feature row, `k = 1`. -/
theorem run_kmeans_assignment_invariants_witness :
    ([{ customer_id := "A", calc_date := 0, cluster_id := 0,
        segment_name := "Need Attention",
        cluster_score := (366, 0, 0) }] : List CustomerCluster).length
        = (([⟨"A", 0, 366, 0, 0⟩] : List RFMFeature).filter
            fun r => r.calc_date == 0).length ∧
      ([{ customer_id := "A", calc_date := 0, cluster_id := 0,
          segment_name := "Need Attention",
          cluster_score := (366, 0, 0) }] : List CustomerCluster).all
          (fun a => decide (a.cluster_id < 1)) = true :=
  have h := run_kmeans_assignment_invariants id constKMeans
    [⟨"A", 0, 366, 0, 0⟩] 0 1
    [{ customer_id := "A", calc_date := 0, cluster_id := 0,
       segment_name := "Need Attention", cluster_score := (366, 0, 0) }]
    [[366, 0, 0]]
    (fun X k2 => by simp [constKMeans])
    (fun X k2 hk2 l hl => by
      simp [constKMeans] at hl
      omega)
    (by decide)
    (by norm_num [run_kmeans_clustering, fitScaler, scalerTransform, scalerInverse,
      colMean, colVar, column, handleZeros, constKMeans, map_cluster_to_segment,
      List.range_succ])
  ⟨h.1, List.all_eq_true.mpr fun a ha => decide_eq_true (h.2 a ha)⟩

/-- C6: the segment labeler is a pure function of the standardized centroid,
its output is always one of the 8 fixed labels, centroid `(-1, 1, 1)` maps
to "Champions" and centroid `(1, -1, -1)` maps to "At Risk". Determinism and
first-match-wins evaluation hold by construction of the nested-conditional
definition. -/
theorem map_cluster_to_segment_spec :
    (∀ (cluster_id : ℕ) (centroids : List (List ℚ)),
        map_cluster_to_segment cluster_id centroids ∈ segmentLabels) ∧
      map_cluster_to_segment 0 [[-1, 1, 1]] = "Champions" ∧
      map_cluster_to_segment 0 [[1, -1, -1]] = "At Risk" := by
  refine ⟨?_, by norm_num [map_cluster_to_segment], by norm_num [map_cluster_to_segment]⟩
  intro cluster_id centroids
  unfold map_cluster_to_segment
  dsimp only
  split_ifs <;> simp [segmentLabels]

theorem colMean_const {l : List ℚ} {c : ℚ} (h : ∀ x ∈ l, x = c)
    (hne : l ≠ []) : colMean l = c := by
  have hsum : l.sum = l.length • c := List.sum_eq_card_nsmul l c h
  have hn : (l.length : ℚ) ≠ 0 := by
    have : l.length ≠ 0 := fun h0 => hne (List.eq_nil_of_length_eq_zero h0)
    exact_mod_cast this
  rw [colMean, hsum, nsmul_eq_mul]
  field_simp

/-- C7: standardization never divides by zero — every fitted scale is
nonzero (a zero standard deviation is replaced by 1), and a column that is
constant across all rows standardizes to 0 in every row. -/
theorem standardize_zero_variance (sqrtFn : ℚ → ℚ) (X : List (List ℚ))
    (j : ℕ) (c : ℚ)
    (hj : j < 3)
    (hrows : ∀ row ∈ X, row.length = 3)
    (hconst : ∀ row ∈ X, row.getD j 0 = c) :
    (∀ s : ℚ, handleZeros s ≠ 0) ∧
      ((scalerTransform (fitScaler sqrtFn X 3) X).map fun row => row.getD j 0)
        = List.replicate X.length 0 := by
  constructor
  · intro s
    unfold handleZeros
    split
    · norm_num
    · assumption
  · rw [List.eq_replicate_iff]
    refine ⟨by simp [scalerTransform], ?_⟩
    intro b hb
    rw [List.mem_map] at hb
    obtain ⟨row, hrow, rfl⟩ := hb
    rw [scalerTransform, List.mem_map] at hrow
    obtain ⟨row0, hrow0, rfl⟩ := hrow
    have hlen0 : row0.length = 3 := hrows row0 hrow0
    have hmean : (fitScaler sqrtFn X 3).means.getD j 0 = colMean (column X j) := by
      rw [fitScaler]
      dsimp only
      rw [List.getD_eq_getElem?_getD]
      simp [List.getElem?_map, List.getElem?_range, hj]
    have hcol : colMean (column X j) = c := by
      apply colMean_const
      · intro x hx
        rw [column, List.mem_map] at hx
        obtain ⟨r, hr, rfl⟩ := hx
        exact hconst r hr
      · simp only [column, ne_eq, List.map_eq_nil_iff]
        exact List.ne_nil_of_mem hrow0
    rw [List.getD_eq_getElem?_getD]
    simp only [List.getElem?_map, List.getElem?_range, hlen0, hj, if_pos,
      Option.map_some', Option.getD_some]
    rw [hmean, hcol, hconst row0 hrow0]
    simp

/-- Concrete instance discharging the hypotheses of
`standardize_zero_variance`: two customers sharing the value 1 in the first
feature column. -/
theorem standardize_zero_variance_witness :
    handleZeros (37 : ℚ) ≠ 0 ∧
      ((scalerTransform (fitScaler id [[1, 2, 3], [1, 5, 7]] 3)
          [[1, 2, 3], [1, 5, 7]]).map fun row => row.getD 0 0) = [0, 0] :=
  have h := standardize_zero_variance id [[1, 2, 3], [1, 5, 7]] 0 1
    (by decide) (by decide) (by decide)
  ⟨h.1 37, by rw [h.2]; rfl⟩

/-- The tables read and written by the pipeline (`app/db.py` session). -/
structure DB where
  customers : List Customer
  orders : List Order
  rfm_features : List RFMFeature
  customer_clusters : List CustomerCluster
deriving Repr, DecidableEq

/-- The dictionary returned by `ingest_all` (`app/ingestion.py`). -/
structure IngestionResults where
  customers_ingested : ℕ
  orders_ingested : ℕ
  errors : List String
deriving Repr, DecidableEq

/-- `ingest_all` (`app/ingestion.py`): each sub-ingestion runs under its own
try/except and its outcome (returned count, or the raised exception's
message) enters the embedding as an `Except` argument. `ingest_all` is a
total function of those outcomes: every exception of a sub-step is caught
and appended to its own `errors` list, so `ingest_all` itself never
raises. -/
def ingest_all (custRes ordRes : Except String ℕ) : IngestionResults :=
  let results : IngestionResults :=
    { customers_ingested := 0, orders_ingested := 0, errors := [] }
  let results := match custRes with
    | .ok n => { results with customers_ingested := n }
    | .error e =>
        { results with errors := results.errors ++ ["Customer ingestion error: " ++ e] }
  match ordRes with
  | .ok n => { results with orders_ingested := n }
  | .error e =>
      { results with errors := results.errors ++ ["Order ingestion error: " ++ e] }

/-- The result dictionary of `run_full_pipeline` (`app/pipeline/run_full.py`).
`clustering_counts` models `results['clustering']` on success
(`customers_clustered`, `clusters_created`); `none` models the error entry. -/
structure RunResult where
  status : String
  ingestion : IngestionResults
  rfm_customers_processed : ℕ
  clustering_counts : Option (ℕ × ℕ)
  errors : List String
deriving Repr, DecidableEq

/-- Step 2 of `run_full_pipeline`: delete the RFM rows keyed to the calc
date, recompute with `calculate_rfm`, write. The computation is total, so
the stage always commits. -/
def rfmStage (db : DB) (calc_date : Int) (window_days : ℕ) : DB × ℕ :=
  let rfm_features := calculate_rfm db.customers db.orders calc_date window_days
  ({ db with rfm_features :=
      db.rfm_features.filter (fun r => !(r.calc_date == calc_date)) ++ rfm_features },
   rfm_features.length)

/-- Step 3 of `run_full_pipeline`: delete the cluster assignments keyed to
the calc date, recompute, write; on failure the transaction is rolled back,
leaving the tables unchanged, and the error is reported. -/
def clusteringStage (sqrtFn : ℚ → ℚ)
    (kmeansFit : List (List ℚ) → ℕ → KMeansResult)
    (db : DB) (calc_date : Int) (k : ℕ) : DB × Except ClusteringError ℕ :=
  match run_kmeans_clustering sqrtFn kmeansFit db.rfm_features calc_date k with
  | .ok (cluster_assignments, _) =>
      ({ db with customer_clusters :=
          db.customer_clusters.filter (fun a => !(a.calc_date == calc_date))
            ++ cluster_assignments },
       .ok cluster_assignments.length)
  | .error e => (db, .error e)

/-- `run_full_pipeline` (`app/pipeline/run_full.py`): ingest, then RFM, then
clustering, collecting stage failures in the aggregate `errors` list and
deriving the overall status from it. The CSV upsert's effect on the
customer/order tables enters as `ingestEffect`, its result dictionary as
`ingestOutcome` (produced by `ingest_all`, which never raises — so the
orchestrator's ingestion except-branch is dead code and contributes nothing
to `errors`). The function is total: no exception escapes to the caller. -/
def run_full_pipeline (sqrtFn : ℚ → ℚ)
    (kmeansFit : List (List ℚ) → ℕ → KMeansResult)
    (ingestEffect : List Customer × List Order → List Customer × List Order)
    (ingestOutcome : IngestionResults)
    (db : DB) (calc_date : Int) (window_days k : ℕ) : RunResult × DB :=
  let co := ingestEffect (db.customers, db.orders)
  let db1 : DB := { db with customers := co.1, orders := co.2 }
  let step2 := rfmStage db1 calc_date window_days
  let step3 := clusteringStage sqrtFn kmeansFit step2.1 calc_date k
  let errors := match step3.2 with
    | .ok _ => []
    | .error e => ["Clustering error: " ++ clusteringErrorText e]
  ({ status := if errors.isEmpty then "success" else "partial_success"
     ingestion := ingestOutcome
     rfm_customers_processed := step2.2
     clustering_counts := match step3.2 with
       | .ok n => some (n, k)
       | .error _ => none
     errors := errors },
   step3.1)

theorem filter_split_pos {α : Type} (p : α → Bool) (l fresh : List α)
    (hf : ∀ x ∈ fresh, p x = true) :
    ((l.filter fun x => !(p x)) ++ fresh).filter p = fresh := by
  rw [List.filter_append]
  have h1 : (l.filter fun x => !(p x)).filter p = [] := by
    rw [List.filter_filter]
    apply List.filter_eq_nil_iff.mpr
    intro a _
    cases p a <;> simp
  have h2 : fresh.filter p = fresh := List.filter_eq_self.mpr hf
  rw [h1, h2, List.nil_append]

theorem filter_split_neg {α : Type} (p : α → Bool) (l fresh : List α)
    (hf : ∀ x ∈ fresh, p x = true) :
    ((l.filter fun x => !(p x)) ++ fresh).filter (fun x => !(p x))
      = l.filter fun x => !(p x) := by
  rw [List.filter_append]
  have h1 : (l.filter fun x => !(p x)).filter (fun x => !(p x))
      = l.filter fun x => !(p x) := by
    rw [List.filter_filter]
    apply List.filter_congr
    intro a _
    exact Bool.and_self _
  have h2 : fresh.filter (fun x => !(p x)) = [] := by
    apply List.filter_eq_nil_iff.mpr
    intro a ha
    rw [hf a ha]
    simp
  rw [h1, h2, List.append_nil]

theorem rfmForCustomer_calc_date (orders : List Order) (calc_date : Int)
    (window_days : ℕ) (c : Customer) :
    (rfmForCustomer orders calc_date window_days c).calc_date = calc_date := by
  unfold rfmForCustomer
  cases orders.filter (completedInWindow calc_date window_days c.customer_id) with
  | nil => rfl
  | cons o os => rfl

theorem calculate_rfm_dates (customers : List Customer) (orders : List Order)
    (calc_date : Int) (window_days : ℕ) :
    ∀ r ∈ calculate_rfm customers orders calc_date window_days,
      (r.calc_date == calc_date) = true := by
  intro r hr
  rw [calculate_rfm, List.mem_map] at hr
  obtain ⟨c, _, rfl⟩ := hr
  simp [rfmForCustomer_calc_date]

theorem run_kmeans_assignment_dates {sqrtFn : ℚ → ℚ}
    {kmeansFit : List (List ℚ) → ℕ → KMeansResult}
    {rfm_rows : List RFMFeature} {calc_date : Int} {k : ℕ}
    {assignments : List CustomerCluster} {centroids : List (List ℚ)}
    (hok : run_kmeans_clustering sqrtFn kmeansFit rfm_rows calc_date k
        = .ok (assignments, centroids)) :
    ∀ a ∈ assignments, (a.calc_date == calc_date) = true := by
  unfold run_kmeans_clustering at hok
  dsimp only at hok
  split at hok
  next => cases hok
  next =>
      injection hok with hok
      injection hok with hassign _
      subst hassign
      intro a ha
      rw [List.mem_mapIdx] at ha
      obtain ⟨i, hi, rfl⟩ := ha
      simp

theorem clusteringStage_rfm_unchanged (sqrtFn : ℚ → ℚ)
    (kmeansFit : List (List ℚ) → ℕ → KMeansResult)
    (db : DB) (calc_date : Int) (k : ℕ) :
    (clusteringStage sqrtFn kmeansFit db calc_date k).1.rfm_features
        = db.rfm_features ∧
      (clusteringStage sqrtFn kmeansFit db calc_date k).1.customers
        = db.customers ∧
      (clusteringStage sqrtFn kmeansFit db calc_date k).1.orders = db.orders := by
  unfold clusteringStage
  cases run_kmeans_clustering sqrtFn kmeansFit db.rfm_features calc_date k with
  | ok pair => exact ⟨rfl, rfl, rfl⟩
  | error e => exact ⟨rfl, rfl, rfl⟩

theorem clusteringStage_clusters (sqrtFn : ℚ → ℚ)
    (kmeansFit : List (List ℚ) → ℕ → KMeansResult)
    (db : DB) (calc_date : Int) (k : ℕ) :
    ((clusteringStage sqrtFn kmeansFit db calc_date k).1.customer_clusters.filter
        fun a => a.calc_date == calc_date).length
      = (match run_kmeans_clustering sqrtFn kmeansFit db.rfm_features calc_date k with
          | .ok (assignments, _) => assignments.length
          | .error _ =>
              (db.customer_clusters.filter fun a => a.calc_date == calc_date).length) := by
  unfold clusteringStage
  cases hrun : run_kmeans_clustering sqrtFn kmeansFit db.rfm_features calc_date k with
  | ok pair =>
      obtain ⟨assignments, cent⟩ := pair
      dsimp only
      rw [filter_split_pos _ _ _ (run_kmeans_assignment_dates hrun)]
  | error e => rfl

/-- C8: each run deletes the rows keyed to the calc date before writing
(replace-by-date): the RFM rows for the date after a run are exactly the
freshly computed features; and a second run over unchanged input data (the
CSV upsert effect is idempotent) leaves the same count of RFM rows and of
cluster assignments for that date. -/
theorem pipeline_replace_by_date_idempotent (sqrtFn : ℚ → ℚ)
    (kmeansFit : List (List ℚ) → ℕ → KMeansResult)
    (ingestEffect : List Customer × List Order → List Customer × List Order)
    (ingestOutcome : IngestionResults)
    (db : DB) (calc_date : Int) (window_days k : ℕ)
    (hidem : ∀ co : List Customer × List Order,
      ingestEffect (ingestEffect co) = ingestEffect co) :
    ((run_full_pipeline sqrtFn kmeansFit ingestEffect ingestOutcome db
          calc_date window_days k).2.rfm_features.filter
        fun r => r.calc_date == calc_date)
        = calculate_rfm (ingestEffect (db.customers, db.orders)).1
            (ingestEffect (db.customers, db.orders)).2 calc_date window_days ∧
      ((run_full_pipeline sqrtFn kmeansFit ingestEffect ingestOutcome
            (run_full_pipeline sqrtFn kmeansFit ingestEffect ingestOutcome db
              calc_date window_days k).2
            calc_date window_days k).2.rfm_features.filter
          fun r => r.calc_date == calc_date).length
        = ((run_full_pipeline sqrtFn kmeansFit ingestEffect ingestOutcome db
              calc_date window_days k).2.rfm_features.filter
            fun r => r.calc_date == calc_date).length ∧
      ((run_full_pipeline sqrtFn kmeansFit ingestEffect ingestOutcome
            (run_full_pipeline sqrtFn kmeansFit ingestEffect ingestOutcome db
              calc_date window_days k).2
            calc_date window_days k).2.customer_clusters.filter
          fun a => a.calc_date == calc_date).length
        = ((run_full_pipeline sqrtFn kmeansFit ingestEffect ingestOutcome db
              calc_date window_days k).2.customer_clusters.filter
            fun a => a.calc_date == calc_date).length := by
  have hrfmdb : ∀ d : DB,
      (run_full_pipeline sqrtFn kmeansFit ingestEffect ingestOutcome d
          calc_date window_days k).2.rfm_features
        = d.rfm_features.filter (fun r => !(r.calc_date == calc_date))
            ++ calculate_rfm (ingestEffect (d.customers, d.orders)).1
                (ingestEffect (d.customers, d.orders)).2 calc_date window_days := by
    intro d
    exact (clusteringStage_rfm_unchanged sqrtFn kmeansFit _ calc_date k).1
  have hcodb : ∀ d : DB,
      (run_full_pipeline sqrtFn kmeansFit ingestEffect ingestOutcome d
            calc_date window_days k).2.customers
          = (ingestEffect (d.customers, d.orders)).1 ∧
        (run_full_pipeline sqrtFn kmeansFit ingestEffect ingestOutcome d
            calc_date window_days k).2.orders
          = (ingestEffect (d.customers, d.orders)).2 := by
    intro d
    exact ⟨(clusteringStage_rfm_unchanged sqrtFn kmeansFit _ calc_date k).2.1,
      (clusteringStage_rfm_unchanged sqrtFn kmeansFit _ calc_date k).2.2⟩
  set db1 := (run_full_pipeline sqrtFn kmeansFit ingestEffect ingestOutcome db
    calc_date window_days k).2 with hdb1
  have hco1 : (db1.customers, db1.orders) = ingestEffect (db.customers, db.orders) := by
    rw [(hcodb db).1, (hcodb db).2]
  have hco2 : ingestEffect (db1.customers, db1.orders)
      = ingestEffect (db.customers, db.orders) := by
    rw [hco1]
    exact hidem (db.customers, db.orders)
  have hfresh1 : db1.rfm_features
      = db.rfm_features.filter (fun r => !(r.calc_date == calc_date))
          ++ calculate_rfm (ingestEffect (db.customers, db.orders)).1
              (ingestEffect (db.customers, db.orders)).2 calc_date window_days :=
    hrfmdb db
  have hdates := calculate_rfm_dates (ingestEffect (db.customers, db.orders)).1
    (ingestEffect (db.customers, db.orders)).2 calc_date window_days
  have hpos : (db1.rfm_features.filter fun r => r.calc_date == calc_date)
      = calculate_rfm (ingestEffect (db.customers, db.orders)).1
          (ingestEffect (db.customers, db.orders)).2 calc_date window_days := by
    rw [hfresh1]
    exact filter_split_pos _ _ _ hdates
  refine ⟨hpos, ?_, ?_⟩
  · rw [hrfmdb db1, hco2, filter_split_pos _ _ _ hdates, hpos]
  · show ((clusteringStage sqrtFn kmeansFit _ calc_date k).1.customer_clusters.filter
        fun a => a.calc_date == calc_date).length = _
    rw [clusteringStage_clusters]
    show _ = ((clusteringStage sqrtFn kmeansFit _ calc_date k).1.customer_clusters.filter
        fun a => a.calc_date == calc_date).length
    rw [clusteringStage_clusters]
    have harg : (rfmStage
          { db1 with
            customers := (ingestEffect (db1.customers, db1.orders)).1
            orders := (ingestEffect (db1.customers, db1.orders)).2 }
          calc_date window_days).1.rfm_features
        = (rfmStage
            { db with
              customers := (ingestEffect (db.customers, db.orders)).1
              orders := (ingestEffect (db.customers, db.orders)).2 }
            calc_date window_days).1.rfm_features := by
      show db1.rfm_features.filter (fun r => !(r.calc_date == calc_date))
            ++ calculate_rfm (ingestEffect (db1.customers, db1.orders)).1
                (ingestEffect (db1.customers, db1.orders)).2 calc_date window_days
          = db.rfm_features.filter (fun r => !(r.calc_date == calc_date))
            ++ calculate_rfm (ingestEffect (db.customers, db.orders)).1
                (ingestEffect (db.customers, db.orders)).2 calc_date window_days
      rw [hco2, hfresh1, filter_split_neg _ _ _ hdates]
    rw [harg]
    cases hrun : run_kmeans_clustering sqrtFn kmeansFit
        (rfmStage
          { db with
            customers := (ingestEffect (db.customers, db.orders)).1
            orders := (ingestEffect (db.customers, db.orders)).2 }
          calc_date window_days).1.rfm_features calc_date k with
    | ok pair => rfl
    | error e =>
        have hcl1 : db1.customer_clusters = db.customer_clusters := by
          show (clusteringStage sqrtFn kmeansFit
              (rfmStage
                { db with
                  customers := (ingestEffect (db.customers, db.orders)).1
                  orders := (ingestEffect (db.customers, db.orders)).2 }
                calc_date window_days).1
              calc_date k).1.customer_clusters = db.customer_clusters
          unfold clusteringStage
          rw [hrun]
          rfl
        show (db1.customer_clusters.filter fun a => a.calc_date == calc_date).length
            = (db.customer_clusters.filter fun a => a.calc_date == calc_date).length
        rw [hcl1]

/-- Concrete instance discharging the hypothesis of
`pipeline_replace_by_date_idempotent`: identity ingestion (the upsert of an
unchanged CSV), one customer, `k = 1`. -/
theorem pipeline_replace_by_date_idempotent_witness :
    ((run_full_pipeline id constKMeans id ⟨0, 0, []⟩ ⟨[⟨"A"⟩], [], [], []⟩
          0 365 1).2.rfm_features.filter fun r => r.calc_date == 0)
        = calculate_rfm [⟨"A"⟩] [] 0 365 ∧
      ((run_full_pipeline id constKMeans id ⟨0, 0, []⟩
            (run_full_pipeline id constKMeans id ⟨0, 0, []⟩ ⟨[⟨"A"⟩], [], [], []⟩
              0 365 1).2
            0 365 1).2.rfm_features.filter fun r => r.calc_date == 0).length
        = ((run_full_pipeline id constKMeans id ⟨0, 0, []⟩ ⟨[⟨"A"⟩], [], [], []⟩
              0 365 1).2.rfm_features.filter fun r => r.calc_date == 0).length ∧
      ((run_full_pipeline id constKMeans id ⟨0, 0, []⟩
            (run_full_pipeline id constKMeans id ⟨0, 0, []⟩ ⟨[⟨"A"⟩], [], [], []⟩
              0 365 1).2
            0 365 1).2.customer_clusters.filter fun a => a.calc_date == 0).length
        = ((run_full_pipeline id constKMeans id ⟨0, 0, []⟩ ⟨[⟨"A"⟩], [], [], []⟩
              0 365 1).2.customer_clusters.filter fun a => a.calc_date == 0).length :=
  pipeline_replace_by_date_idempotent id constKMeans id ⟨0, 0, []⟩
    ⟨[⟨"A"⟩], [], [], []⟩ 0 365 1 (fun _ => rfl)

/-- C9 (amended): the aggregate status is "success" exactly when the
aggregate error list is empty and "partial_success" exactly when it is not;
the aggregate list carries only RFM/clustering stage failures (here: the
clustering error, the only fallible stage of the embedding), while
ingestion failures stay inside the ingestion sub-result; no exception
escapes — `run_full_pipeline` is total by construction. -/
theorem run_full_status_spec (sqrtFn : ℚ → ℚ)
    (kmeansFit : List (List ℚ) → ℕ → KMeansResult)
    (ingestEffect : List Customer × List Order → List Customer × List Order)
    (ingestOutcome : IngestionResults)
    (db : DB) (calc_date : Int) (window_days k : ℕ) :
    ((run_full_pipeline sqrtFn kmeansFit ingestEffect ingestOutcome db
          calc_date window_days k).1.status = "success"
        ↔ (run_full_pipeline sqrtFn kmeansFit ingestEffect ingestOutcome db
            calc_date window_days k).1.errors = []) ∧
      ((run_full_pipeline sqrtFn kmeansFit ingestEffect ingestOutcome db
            calc_date window_days k).1.status = "partial_success"
        ↔ (run_full_pipeline sqrtFn kmeansFit ingestEffect ingestOutcome db
            calc_date window_days k).1.errors ≠ []) ∧
      ((run_full_pipeline sqrtFn kmeansFit ingestEffect ingestOutcome db
            calc_date window_days k).1.errors = [] ∨
        ∃ e : ClusteringError,
          (run_full_pipeline sqrtFn kmeansFit ingestEffect ingestOutcome db
              calc_date window_days k).1.errors
            = ["Clustering error: " ++ clusteringErrorText e]) ∧
      (run_full_pipeline sqrtFn kmeansFit ingestEffect ingestOutcome db
          calc_date window_days k).1.ingestion = ingestOutcome := by
  unfold run_full_pipeline
  dsimp only
  cases h3 : (clusteringStage sqrtFn kmeansFit
      (rfmStage
        { db with
          customers := (ingestEffect (db.customers, db.orders)).1
          orders := (ingestEffect (db.customers, db.orders)).2 }
        calc_date window_days).1
      calc_date k).2 with
  | ok n =>
      exact ⟨iff_of_true rfl rfl,
        iff_of_false (fun h => (by decide : ("success" : String) ≠ "partial_success") h)
          (fun hne => hne rfl),
        Or.inl rfl, rfl⟩
  | error e =>
      exact ⟨iff_of_false
          (fun h => (by decide : ("partial_success" : String) ≠ "success") h)
          (fun h => List.cons_ne_nil _ _ h),
        iff_of_true rfl (fun h => List.cons_ne_nil _ _ h),
        Or.inr ⟨e, rfl⟩, rfl⟩

/-- The claim as frozen is false on the code: an ingestion failure (caught
inside `ingest_all`) leaves the aggregate error list empty and the overall
status "success", instead of being recorded in the aggregate list with
status "partial_success". -/
theorem run_full_status_ignores_ingestion_failure :
    (run_full_pipeline id constKMeans id (ingest_all (.error "boom") (.ok 0))
        ⟨[⟨"A"⟩], [], [], []⟩ 0 365 1).1.ingestion.errors
        = ["Customer ingestion error: boom"] ∧
      (run_full_pipeline id constKMeans id (ingest_all (.error "boom") (.ok 0))
          ⟨[⟨"A"⟩], [], [], []⟩ 0 365 1).1.errors = [] ∧
      (run_full_pipeline id constKMeans id (ingest_all (.error "boom") (.ok 0))
          ⟨[⟨"A"⟩], [], [], []⟩ 0 365 1).1.status = "success" :=
  ⟨rfl, rfl, rfl⟩

/-- C10: `ingest_all` never raises — it is total over arbitrary outcomes of
its two sub-ingestions, collecting each failure message only in its own
`errors` list; the orchestrator stores that dictionary under the ingestion
key and never appends ingestion failures to the run's aggregate error
list. -/
theorem ingest_all_errors_contained (custRes ordRes : Except String ℕ)
    (sqrtFn : ℚ → ℚ) (kmeansFit : List (List ℚ) → ℕ → KMeansResult)
    (ingestEffect : List Customer × List Order → List Customer × List Order)
    (db : DB) (calc_date : Int) (window_days k : ℕ) :
    (ingest_all custRes ordRes).errors
        = (match custRes with
            | .ok _ => []
            | .error e => ["Customer ingestion error: " ++ e])
          ++ (match ordRes with
            | .ok _ => []
            | .error e => ["Order ingestion error: " ++ e]) ∧
      (run_full_pipeline sqrtFn kmeansFit ingestEffect (ingest_all custRes ordRes)
          db calc_date window_days k).1.ingestion = ingest_all custRes ordRes ∧
      ((run_full_pipeline sqrtFn kmeansFit ingestEffect (ingest_all custRes ordRes)
            db calc_date window_days k).1.errors = [] ∨
        ∃ e : ClusteringError,
          (run_full_pipeline sqrtFn kmeansFit ingestEffect (ingest_all custRes ordRes)
              db calc_date window_days k).1.errors
            = ["Clustering error: " ++ clusteringErrorText e]) := by
  refine ⟨?_, rfl, ?_⟩
  · cases custRes <;> cases ordRes <;> rfl
  · unfold run_full_pipeline
    dsimp only
    cases h3 : (clusteringStage sqrtFn kmeansFit
        (rfmStage
          { db with
            customers := (ingestEffect (db.customers, db.orders)).1
            orders := (ingestEffect (db.customers, db.orders)).2 }
          calc_date window_days).1
        calc_date k).2 with
    | ok n => exact Or.inl rfl
    | error e => exact Or.inr ⟨e, rfl⟩

end App
